import Mathlib

/-!
Verification development for the `dependabot-approve` command-line tool
(`src/main.rs`).

The Rust program is shallowly embedded below.  Pure functions become Lean
functions; effectful functions become pure functions over an explicit
description of their environment (HTTP transports are functions from the
attempt number to a transport result, stdin is a list of lines, stdout and
stderr become lists of emitted lines, process termination and unreachable
markers become explicit outcome constructors).

String handling: the Rust code works on UTF-8 `String`s; here strings are
Lean `String`s, and the handful of string primitives the program uses
(`trim`, `split(',')`, `to_lowercase`, `str::contains`, `usize::from_str`)
are given executable models over `String.data` so that every definition
evaluates inside the kernel.  `to_lowercase` is modelled with
`Char.toLower`, which agrees with Rust on the ASCII strings the program
compares.  Timestamps (`time::PrimitiveDateTime`, a totally ordered type)
are modelled as `Int` offsets from the epoch `1970-01-01 0:00`, which is
the initial accumulator `datetime!(1970-01-01 0:00)` of the status fold.
-/

/-! ## String primitives used by the program -/

/-- Whitespace test used by the `trim` model (ASCII whitespace, agreeing
with Rust `char::is_whitespace` on the ASCII range). -/
def is_ws (c : Char) : Bool := c.isWhitespace

/-- Trim leading and trailing whitespace from a character list. -/
def trim_chars (cs : List Char) : List Char :=
  ((cs.dropWhile is_ws).reverse.dropWhile is_ws).reverse

/-- Model of Rust `str::trim`. -/
def str_trim (s : String) : String := String.mk (trim_chars s.data)

/-- Model of Rust `str::to_lowercase` (ASCII-faithful). -/
def lower_str (s : String) : String := String.mk (s.data.map Char.toLower)

/-- Model of Rust `str::split(',')` on a character list: splitting an empty
string yields one empty piece, like Rust's `split`. -/
def split_commas : List Char → List (List Char)
  | [] => [[]]
  | c :: rest =>
    let r := split_commas rest
    if c = ',' then [] :: r
    else
      match r with
      | [] => [[c]]
      | g :: gs => (c :: g) :: gs

/-- Model of Rust `str::split(',')` returning strings. -/
def split_comma_str (s : String) : List String := (split_commas s.data).map String.mk

/-- Executable infix test on lists (`needle` occurs contiguously in the
second list). -/
def list_infix_of [DecidableEq α] : List α → List α → Bool
  | needle, [] => decide (needle = [])
  | needle, x :: rest => needle.isPrefixOf (x :: rest) || list_infix_of needle rest

/-- Model of Rust `str::contains` (case-sensitive substring test). -/
def str_contains (haystack needle : String) : Bool :=
  list_infix_of needle.data haystack.data

/-- Model of Rust `usize::from_str` as used by `str::parse::<usize>()`:
an optional leading `+`, then one or more ASCII digits, rejecting values
that overflow a 64-bit `usize`. -/
def parse_usize (s : String) : Option Nat :=
  let cs := s.data
  let ds := match cs with
    | '+' :: rest => rest
    | _ => cs
  if ds = [] then none
  else if ds.all (fun c => c.isDigit) then
    let n := ds.foldl (fun a c => a * 10 + (c.toNat - 48)) 0
    if n < 18446744073709551616 then some n else none
  else none

/-! ## Data model (the serde structs of `main.rs`) -/

/-- `struct User { login: String }` -/
structure User where
  login : String
deriving DecidableEq

/-- `struct Repo { owner: User, name: String }` -/
structure Repo where
  owner : User
  name : String
deriving DecidableEq

/-- `struct Branch { repo: Repo, sha: String }` -/
structure Branch where
  repo : Repo
  sha : String
deriving DecidableEq

/-- `struct Link { href: String }` -/
structure Link where
  href : String
deriving DecidableEq

/-- `struct Links { statuses: Link }` -/
structure Links where
  statuses : Link
deriving DecidableEq

/-- `struct PullRequest` (field `links` stands for the Rust field
`_links`). -/
structure PullRequest where
  links : Links
  user : User
  requested_reviewers : List User
  title : String
  number : Nat
  base : Branch
  head : Branch
  review_comments_url : String
  comments_url : String
deriving DecidableEq

/-- `struct GHStatus { created_at, creator, state }`; `created_at` is an
`Int` offset from the epoch `1970-01-01 0:00` (the type
`PrimitiveDateTime` is totally ordered and can also represent instants at
or before the epoch). -/
structure GHStatus where
  created_at : Int
  creator : User
  state : String
deriving DecidableEq

/-- `struct Review { id, body, user }` -/
structure Review where
  id : Nat
  body : String
  user : User
deriving DecidableEq

/-- Helper to build a `PullRequest` whose only distinguishing datum is the
author login (all other fields are irrelevant to the filters under
study). -/
def mkPR (login : String) : PullRequest :=
  ⟨⟨⟨""⟩⟩, ⟨login⟩, [], "", 0, ⟨⟨⟨""⟩, ""⟩, ""⟩, ⟨⟨⟨""⟩, ""⟩, ""⟩, "", ""⟩

/-! ## Status reconciliation (`get_latest_status`, `status_fold`) -/

/-- The fold initialiser `datetime!(1970-01-01 0:00)` as an `Int` offset. -/
def epoch_dt : Int := 0

/-- `status_fold` from `main.rs`: keep the accumulator unless the event's
`created_at` is strictly greater. -/
def status_fold (most_recent : Int × Option String) (status : GHStatus) :
    Int × Option String :=
  if most_recent.1 < status.created_at then (status.created_at, some status.state)
  else most_recent

/-- The pure core of `get_latest_status` from `main.rs`: the JSON fetch is
factored out, `statuses` is the decoded status list. -/
def get_latest_status (statuses : List GHStatus) (status_user : Option String) :
    Option String :=
  let fold_init : Int × Option String := (epoch_dt, none)
  let most_recent :=
    match status_user with
    | some u =>
      (statuses.filter (fun (st : GHStatus) => st.creator.login == u)).foldl status_fold fold_init
    | none => statuses.foldl status_fold fold_init
  most_recent.2

/-- The events that participate in the reduction: all of them, or only
those whose creator login equals the filter. -/
def qualifying (statuses : List GHStatus) (status_user : Option String) :
    List GHStatus :=
  match status_user with
  | some u => statuses.filter (fun (st : GHStatus) => st.creator.login == u)
  | none => statuses

theorem get_latest_status_eq_fold (statuses : List GHStatus) (u : Option String) :
    get_latest_status statuses u
      = ((qualifying statuses u).foldl status_fold (epoch_dt, none)).2 := by
  cases u <;> rfl

/-- Complete characterisation of the fold from an arbitrary accumulator:
either nothing beats the accumulator's timestamp, or the result is the
first event attaining the running maximum (strictly above everything
before it, weakly above everything after it). -/
theorem status_foldl_spec (l : List GHStatus) (t : Int) (s : Option String) :
    (l.foldl status_fold (t, s) = (t, s) ∧ ∀ e ∈ l, e.created_at ≤ t)
    ∨ (∃ l1 e l2, l = l1 ++ e :: l2
        ∧ l.foldl status_fold (t, s) = (e.created_at, some e.state)
        ∧ t < e.created_at
        ∧ (∀ x ∈ l1, x.created_at < e.created_at)
        ∧ (∀ x ∈ l2, x.created_at ≤ e.created_at)) := by
  induction l generalizing t s with
  | nil => exact Or.inl ⟨rfl, by simp⟩
  | cons a rest ih =>
    rw [List.foldl_cons]
    by_cases ha : t < a.created_at
    · have hstep : status_fold (t, s) a = (a.created_at, some a.state) := by
        simp [status_fold, ha]
      rw [hstep]
      rcases ih a.created_at (some a.state) with ⟨heq, hall⟩ |
        ⟨l1, e, l2, hsp, heq, hlt, hbef, haft⟩
      · refine Or.inr ⟨[], a, rest, by simp, heq, ha, by simp, hall⟩
      · refine Or.inr ⟨a :: l1, e, l2, by simp [hsp], heq, lt_trans ha hlt, ?_, haft⟩
        intro x hx
        rcases List.mem_cons.mp hx with hx | hx
        · exact hx ▸ hlt
        · exact hbef x hx
    · have hstep : status_fold (t, s) a = (t, s) := by
        simp [status_fold, ha]
      rw [hstep]
      rcases ih t s with ⟨heq, hall⟩ | ⟨l1, e, l2, hsp, heq, hlt, hbef, haft⟩
      · refine Or.inl ⟨heq, ?_⟩
        intro x hx
        rcases List.mem_cons.mp hx with hx | hx
        · exact hx ▸ le_of_not_lt ha
        · exact hall x hx
      · refine Or.inr ⟨a :: l1, e, l2, by simp [hsp], heq, hlt, ?_, haft⟩
        intro x hx
        rcases List.mem_cons.mp hx with hx | hx
        · exact hx ▸ lt_of_le_of_lt (le_of_not_lt ha) hlt
        · exact hbef x hx

/-- C1, counterexample.  A single qualifying event whose `created_at` is
exactly the epoch `1970-01-01 0:00` (the fold initialiser) is not strictly
greater than the initial accumulator, so the fold ignores it: the result
is `none`, while the claim demands `some "success"` (the state of the
event with the maximal timestamp). -/
theorem c1_counterexample :
    get_latest_status [⟨0, ⟨"ci"⟩, "success"⟩] none = none
    ∧ get_latest_status [⟨0, ⟨"ci"⟩, "success"⟩] none ≠ some "success" := by
  exact ⟨rfl, by decide⟩

/-- C1, amended.  For every status list and optional identity filter,
`get_latest_status` returns `none` iff no qualifying event has a timestamp
strictly after the epoch; and whenever it returns `some st`, `st` is the
state of the first qualifying event (in iteration order) attaining the
maximal timestamp, that timestamp being strictly after the epoch: every
earlier qualifying event has a strictly smaller timestamp, every later one
a smaller-or-equal timestamp. -/
theorem c1_latest_status_amended (statuses : List GHStatus) (u : Option String) :
    (get_latest_status statuses u = none ↔
      ∀ e ∈ qualifying statuses u, e.created_at ≤ epoch_dt)
    ∧ (∀ st, get_latest_status statuses u = some st →
        ∃ l1 e l2, qualifying statuses u = l1 ++ e :: l2
          ∧ e.state = st ∧ epoch_dt < e.created_at
          ∧ (∀ x ∈ l1, x.created_at < e.created_at)
          ∧ (∀ x ∈ l2, x.created_at ≤ e.created_at)) := by
  have hg := get_latest_status_eq_fold statuses u
  rcases status_foldl_spec (qualifying statuses u) epoch_dt none with
    ⟨heq, hall⟩ | ⟨l1, e, l2, hsp, heq, hlt, hbef, haft⟩
  · have hres : get_latest_status statuses u = none := by rw [hg, heq]
    refine ⟨⟨fun _ => hall, fun _ => hres⟩, ?_⟩
    intro st hst
    rw [hres] at hst
    exact absurd hst (by simp)
  · have hres : get_latest_status statuses u = some e.state := by rw [hg, heq]
    constructor
    · constructor
      · intro h0
        rw [hres] at h0
        exact absurd h0 (by simp)
      · intro hall
        have hmem : e ∈ qualifying statuses u := by
          rw [hsp]; exact List.mem_append_right _ (List.mem_cons_self _ _)
        exact absurd hlt (not_lt.mpr (hall e hmem))
    · intro st hst
      rw [hres] at hst
      exact ⟨l1, e, l2, hsp, Option.some.inj hst, hlt, hbef, haft⟩

/-- Concrete event list for the C1 witness. -/
def c1w_events : List GHStatus := [⟨5, ⟨"ci"⟩, "pending"⟩, ⟨7, ⟨"ci"⟩, "success"⟩]

/-- C1 witness: on a concrete two-event list the amended theorem produces
the first event attaining the maximal (post-epoch) timestamp. -/
theorem c1_latest_status_amended_witness :
    ∃ l1 e l2, qualifying c1w_events none = l1 ++ e :: l2
      ∧ e.state = "success" ∧ epoch_dt < e.created_at
      ∧ (∀ x ∈ l1, x.created_at < e.created_at)
      ∧ (∀ x ∈ l2, x.created_at ≤ e.created_at) :=
  (c1_latest_status_amended c1w_events none).2 "success" rfl

/-! ## Resilient request executor (`get_with_retry`, `post_with_retry`, `put_with_retry`) -/

/-- The retry loop shared verbatim by `get_with_retry`, `post_with_retry`
and `put_with_retry` in `main.rs`.  `transport k` is the transport-level
result of attempt number `k`: a completed HTTP exchange is `Except.ok`
whatever its status code, a connection-level failure is `Except.error`.
`fuel` is the number of further attempts allowed after the current one
(the Rust loop breaks with the last error once the failure counter
reaches 5).  The second component records the sleeps, in milliseconds,
performed between attempts. -/
def run_attempts {ε ρ : Type} (transport : Nat → Except ε ρ) (ct : Nat) :
    Nat → Except ε ρ × List Nat
  | 0 => (transport ct, [])
  | n+1 =>
    match transport ct with
    | .ok r => (.ok r, [])
    | .error _ =>
      let rest := run_attempts transport (ct+1) n
      (rest.1, 300 :: rest.2)

/-- `get_with_retry` from `main.rs`: 5 attempts total, the HTTP verb and
url being absorbed into the transport. -/
def get_with_retry {ε ρ : Type} (transport : Nat → Except ε ρ) :
    Except ε ρ × List Nat :=
  run_attempts transport 0 4

/-- `post_with_retry` from `main.rs` (same loop as `get_with_retry`, with
the request body absorbed into the transport). -/
def post_with_retry {ε ρ : Type} (transport : Nat → Except ε ρ) :
    Except ε ρ × List Nat :=
  run_attempts transport 0 4

/-- `put_with_retry` from `main.rs` (same loop again, with the body and
content-type header absorbed into the transport). -/
def put_with_retry {ε ρ : Type} (transport : Nat → Except ε ρ) :
    Except ε ρ × List Nat :=
  run_attempts transport 0 4

theorem run_attempts_zero {ε ρ : Type} (t : Nat → Except ε ρ) (ct : Nat) :
    run_attempts t ct 0 = (t ct, []) := rfl

theorem run_attempts_ok {ε ρ : Type} (t : Nat → Except ε ρ) (ct n : Nat) (r : ρ)
    (h : t ct = .ok r) : run_attempts t ct n = (.ok r, []) := by
  cases n with
  | zero => simp [run_attempts, h]
  | succ m => simp [run_attempts, h]

theorem run_attempts_err_step {ε ρ : Type} (t : Nat → Except ε ρ) (ct n : Nat)
    (e : ε) (res : Except ε ρ) (ds : List Nat) (h : t ct = .error e)
    (hrec : run_attempts t (ct+1) n = (res, ds)) :
    run_attempts t ct (n+1) = (res, 300 :: ds) := by
  simp [run_attempts, h, hrec]

theorem run_attempts_delay_300 {ε ρ : Type} (t : Nat → Except ε ρ) :
    ∀ fuel ct d, d ∈ (run_attempts t ct fuel).2 → d = 300 := by
  intro fuel
  induction fuel with
  | zero => intro ct d hd; simp [run_attempts] at hd
  | succ n ih =>
    intro ct d hd
    cases h : t ct with
    | ok r => simp [run_attempts, h] at hd
    | error e =>
      simp [run_attempts, h] at hd
      rcases hd with hd | hd
      · exact hd
      · exact ih (ct+1) d hd

/-- C5: the retrying executor.  A transport failing on the first 4
attempts and succeeding on the 5th yields the successful response; a
transport failing on all 5 attempts yields the error of the last attempt;
a transport whose first attempt completes (with any HTTP status, 2xx or
not) is returned immediately with no retry and no sleep; and every
inter-attempt delay is exactly 300 ms.  This holds for all three of
`get_with_retry`, `post_with_retry` and `put_with_retry`. -/
theorem c5_retry_executor {ε ρ : Type} (transport : Nat → Except ε ρ)
    (r : ρ) (errs : Nat → ε) :
    ((∀ k, k < 4 → transport k = .error (errs k)) → transport 4 = .ok r →
      get_with_retry transport = (.ok r, [300, 300, 300, 300])
      ∧ post_with_retry transport = (.ok r, [300, 300, 300, 300])
      ∧ put_with_retry transport = (.ok r, [300, 300, 300, 300]))
    ∧ ((∀ k, k ≤ 4 → transport k = .error (errs k)) →
      get_with_retry transport = (.error (errs 4), [300, 300, 300, 300])
      ∧ post_with_retry transport = (.error (errs 4), [300, 300, 300, 300])
      ∧ put_with_retry transport = (.error (errs 4), [300, 300, 300, 300]))
    ∧ (transport 0 = .ok r →
      get_with_retry transport = (.ok r, [])
      ∧ post_with_retry transport = (.ok r, [])
      ∧ put_with_retry transport = (.ok r, []))
    ∧ (∀ d, d ∈ (get_with_retry transport).2 → d = 300)
    ∧ (∀ d, d ∈ (post_with_retry transport).2 → d = 300)
    ∧ (∀ d, d ∈ (put_with_retry transport).2 → d = 300) := by
  refine ⟨?_, ?_, ?_, ?_, ?_, ?_⟩
  · intro h h4
    have s4 := run_attempts_ok transport 4 0 r h4
    have s3 := run_attempts_err_step transport 3 0 _ _ _ (h 3 (by omega)) s4
    have s2 := run_attempts_err_step transport 2 1 _ _ _ (h 2 (by omega)) s3
    have s1 := run_attempts_err_step transport 1 2 _ _ _ (h 1 (by omega)) s2
    have s0 := run_attempts_err_step transport 0 3 _ _ _ (h 0 (by omega)) s1
    exact ⟨s0, s0, s0⟩
  · intro h
    have s4 : run_attempts transport 4 0 = (.error (errs 4), []) := by
      rw [run_attempts_zero, h 4 (by omega)]
    have s3 := run_attempts_err_step transport 3 0 _ _ _ (h 3 (by omega)) s4
    have s2 := run_attempts_err_step transport 2 1 _ _ _ (h 2 (by omega)) s3
    have s1 := run_attempts_err_step transport 1 2 _ _ _ (h 1 (by omega)) s2
    have s0 := run_attempts_err_step transport 0 3 _ _ _ (h 0 (by omega)) s1
    exact ⟨s0, s0, s0⟩
  · intro h0
    have s := run_attempts_ok transport 0 4 r h0
    exact ⟨s, s, s⟩
  · exact fun d hd => run_attempts_delay_300 transport 4 0 d hd
  · exact fun d hd => run_attempts_delay_300 transport 4 0 d hd
  · exact fun d hd => run_attempts_delay_300 transport 4 0 d hd

/-- Concrete transports for the C5 witness. -/
def c5_errs : Nat → String := fun k => "transport failure " ++ Nat.repr k

/-- Fails on attempts 0..3, succeeds with status 200 on attempt 4. -/
def c5_t1 : Nat → Except String Nat := fun k =>
  if k < 4 then .error (c5_errs k) else .ok 200

/-- Fails on every attempt. -/
def c5_t2 : Nat → Except String Nat := fun k => .error (c5_errs k)

/-- Completes immediately with the non-2xx status 404. -/
def c5_t3 : Nat → Except String Nat := fun _ => .ok 404

/-- C5 witness: the three scenarios of the claim at concrete transports. -/
theorem c5_retry_executor_witness :
    get_with_retry c5_t1 = (.ok 200, [300, 300, 300, 300])
    ∧ get_with_retry c5_t2 = (.error (c5_errs 4), [300, 300, 300, 300])
    ∧ get_with_retry c5_t3 = (.ok 404, []) := by
  refine ⟨((c5_retry_executor c5_t1 200 c5_errs).1 ?_ ?_).1,
          ((c5_retry_executor c5_t2 200 c5_errs).2.1 ?_).1,
          ((c5_retry_executor c5_t3 404 c5_errs).2.2.1 ?_).1⟩
  · intro k hk
    simp [c5_t1, hk]
  · rfl
  · intro k _
    rfl
  · rfl

/-! ## HTTP responses and run outcomes -/

/-- A completed HTTP exchange: the status code, and the result of decoding
the response body as JSON into `α` (the `text()` + `serde_json::from_str`
step, which can fail). -/
structure HttpResponse (α : Type) where
  status : Nat
  body : Except String α

/-- How a fragment of the program terminates: a normal value, a
`process::exit(code)`, an explicit program abort (an `unwrap` of a failed
parse or the final `todo!()`), or an error propagated with `?` to the
caller. -/
inductive RunOutcome (α : Type) where
  | ok : α → RunOutcome α
  | exited : Nat → RunOutcome α
  | panicked : RunOutcome α
  | failed : String → RunOutcome α
deriving DecidableEq

/-- `reqwest::StatusCode::is_success`: status in 200..=299. -/
def status_is_success (s : Nat) : Bool := decide (200 ≤ s) && decide (s < 300)

/-- `get_all_prs` from `main.rs`, over the result of `get_with_retry`
(`fetched`): a transport error propagates with `?`; a non-2xx status
prints a diagnostic and exits with code 1; otherwise the body is decoded
(a decode error propagates with `?`). -/
def get_all_prs_run (fetched : Except String (HttpResponse (List PullRequest))) :
    RunOutcome (List PullRequest) :=
  match fetched with
  | .error e => .failed e
  | .ok res =>
    if status_is_success res.status then
      match res.body with
      | .ok prs => .ok prs
      | .error e => .failed e
    else .exited 1

/-- `get_latest_status` from `main.rs` including its fetch: a transport
error propagates with `?`; the HTTP status of the response is never
inspected; the body is decoded with `serde_json::from_str(..).unwrap()`,
which aborts the program on a decode failure; otherwise the pure
reduction `get_latest_status` runs. -/
def get_latest_status_run
    (fetched : Except String (HttpResponse (List GHStatus)))
    (status_user : Option String) : RunOutcome (Option String) :=
  match fetched with
  | .error e => .failed e
  | .ok res =>
    match res.body with
    | .error _ => .panicked
    | .ok statuses => .ok (get_latest_status statuses status_user)

/-- C4, counterexample.  A status-reconciliation response with HTTP status
404 whose body happens to decode as an (empty) status list is not fatal at
all: the run continues with `Ok(None)`, unlike PR discovery, which exits
with code 1 on the same response. -/
theorem c4_counterexample :
    get_latest_status_run (.ok ⟨404, .ok []⟩) none = .ok none
    ∧ get_latest_status_run (.ok ⟨404, .ok []⟩) none ≠ .exited 1
    ∧ get_all_prs_run (.ok ⟨404, .ok []⟩) = .exited 1 := by
  exact ⟨rfl, by decide, rfl⟩

/-- C4, amended.  The status-reconciliation fetch never inspects the HTTP
status code: its outcome depends only on the decoded body — the run
continues normally whenever the body decodes as a status list (even for a
non-2xx response), and aborts via the `unwrap` when the body fails to
decode, which is not the discovery policy; PR discovery alone exits with
code 1 on every non-2xx response. -/
theorem c4_reconciliation_amended (s1 s2 : Nat)
    (b : Except String (List GHStatus)) (u : Option String)
    (statuses : List GHStatus) (e : String) :
    get_latest_status_run (.ok ⟨s1, b⟩) u = get_latest_status_run (.ok ⟨s2, b⟩) u
    ∧ get_latest_status_run (.ok ⟨s1, .ok statuses⟩) u
        = .ok (get_latest_status statuses u)
    ∧ get_latest_status_run (.ok ⟨s1, .error e⟩) u = .panicked
    ∧ (∀ pb : Except String (List PullRequest), ¬ (200 ≤ s1 ∧ s1 < 300) →
        get_all_prs_run (.ok ⟨s1, pb⟩) = .exited 1) := by
  refine ⟨by cases b <;> rfl, rfl, rfl, ?_⟩
  intro pb hs
  have hfalse : status_is_success s1 = false := by
    simp only [status_is_success, Bool.and_eq_false_iff, decide_eq_false_iff_not]
    omega
  simp [get_all_prs_run, hfalse]

/-- C4 witness: discovery at status 404 exits with code 1, applying the
amended theorem at concrete inputs. -/
theorem c4_reconciliation_amended_witness :
    get_all_prs_run (.ok ⟨404, .ok []⟩) = .exited 1 :=
  (c4_reconciliation_amended 404 500 (.ok []) none [] "decode failure").2.2.2
    (.ok []) (by omega)

/-! ## Approval submitter (`submit_approval`) -/

/-- The `BASE_URL` constant of `main.rs` (default feature set). -/
def BASE_URL : String := "https://api.github.com"

/-- The url of the review POST issued by `submit_approval`. -/
def approval_url (pr : PullRequest) : String :=
  BASE_URL ++ "/repos/" ++ pr.base.repo.owner.login ++ "/" ++ pr.base.repo.name
    ++ "/pulls/" ++ Nat.repr pr.number ++ "/reviews"

/-- Observable effects of one `submit_approval` call: the urls of the POST
requests issued, the stdout lines, the stderr lines, and the returned
`Res<()>`. -/
structure SubmitOutcome where
  posts : List String
  printed : List String
  eprinted : List String
  result : Except String Unit

/-- `submit_approval` from `main.rs`.  The guard of the dry-run
short-circuit is `!quiet && dry_run`, exactly as in the source; when it
does not fire, the approval payload is POSTed through `post_with_retry`
(modelled by `transport`, whose `Except.ok` carries the response status),
a transport error propagates with `?`, and the result is reported unless
`quiet`. -/
def submit_approval (pr : PullRequest) (dry_run quiet : Bool)
    (transport : Nat → Except String Nat) : SubmitOutcome :=
  if !quiet && dry_run then
    ⟨[], ["Dry run approval for " ++ pr.title], [], .ok ()⟩
  else
    match (post_with_retry transport).1 with
    | .error e => ⟨[approval_url pr], [], [], .error e⟩
    | .ok status =>
      if quiet then ⟨[approval_url pr], [], [], .ok ()⟩
      else if status_is_success status then
        ⟨[approval_url pr], ["Successfully approved " ++ pr.title], [], .ok ()⟩
      else
        ⟨[approval_url pr], [], ["Failed to approve " ++ pr.title, Nat.repr status], .ok ()⟩

/-- C2: the dry-run guard in the source is `!quiet && dry_run`, so with
`dry_run = true` and `quiet = true` the short-circuit is skipped and the
real approval POST is issued — contradicting both the claim and the
flag's own help text ("Print the actions that would have been taken,
don't approve anything").  With `quiet = false` the short-circuit works
as documented: no POST, and the simulated action is reported. -/
theorem c2_dry_run_quiet_still_posts :
    (submit_approval (mkPR "dependabot[bot]") true true (fun _ => .ok 200)).posts
      = [approval_url (mkPR "dependabot[bot]")]
    ∧ (submit_approval (mkPR "dependabot[bot]") true false (fun _ => .ok 200)).posts = []
    ∧ (submit_approval (mkPR "dependabot[bot]") true false (fun _ => .ok 200)).printed
      = ["Dry run approval for " ++ (mkPR "dependabot[bot]").title] := by
  exact ⟨rfl, rfl, rfl⟩

/-! ## Selection engine (`confirm`, `translate_stdin`, `handle_confirm`) -/

/-- `enum Confirmation` from `main.rs`. -/
inductive Confirmation where
  | All : Confirmation
  | Select : List Nat → Confirmation
deriving DecidableEq

/-- The skip report printed by `handle_confirm` for an index with no
matching candidate. -/
def skip_msg (selection : Nat) : String :=
  "Invalid option selected, skipping: " ++ Nat.repr selection

/-- The `Confirmation::Select` branch of `handle_confirm` from `main.rs`:
each selection is looked up at `selection.saturating_sub(1)` (Lean's `Nat`
subtraction is saturating, like Rust's `saturating_sub`); a hit submits
the candidate's approval (recorded in the first component, in order), a
miss prints a skip report unless `quiet` (second component). -/
def handle_confirm_select (prs : List (PullRequest × String)) (quiet : Bool) :
    List Nat → List PullRequest × List String
  | [] => ([], [])
  | selection :: rest =>
    let r := handle_confirm_select prs quiet rest
    match prs[selection - 1]? with
    | some pr_st => (pr_st.1 :: r.1, r.2)
    | none => if quiet then r else (r.1, skip_msg selection :: r.2)

/-- `handle_confirm` from `main.rs`, with the approvals to be submitted
recorded in presentation order. -/
def handle_confirm (prs : List (PullRequest × String)) (c : Confirmation)
    (quiet : Bool) : List PullRequest × List String :=
  match c with
  | .All => (prs.map Prod.fst, [])
  | .Select selections => handle_confirm_select prs quiet selections

/-- A presented candidate list with three entries, for the concrete cases
of C3. -/
def cand3 : List (PullRequest × String) :=
  [(mkPR "author-a", "success"), (mkPR "author-b", "success"),
   (mkPR "author-c", "failure")]

/-- C3, counterexample.  Input `[0, 99]` against 3 candidates does not
approve nothing with two skips: `0.saturating_sub(1) = 0`, so index 0
selects the FIRST candidate (it does not map to "no match"), and only 99
is skipped — one approval and one skip report. -/
theorem c3_counterexample :
    handle_confirm_select cand3 false [0, 99]
      = ([mkPR "author-a"], [skip_msg 99])
    ∧ (handle_confirm_select cand3 false [0, 99]).1 ≠ []
    ∧ (handle_confirm_select cand3 false [0, 99]).2.length = 1 := by
  refine ⟨rfl, by decide, rfl⟩

/-- C3, amended.  Each index is translated 1-based to 0-based by
saturating subtraction, so index 0 behaves exactly like index 1 (both
select the first candidate when one exists, rather than matching
nothing); the approved candidates are exactly the successful lookups, in
input order; every index with no matching candidate is reported as
skipped (unless `quiet`) and processing continues with the remaining
indices — never fatal. -/
theorem c3_select_amended (prs : List (PullRequest × String))
    (selections : List Nat) (quiet : Bool) :
    handle_confirm_select prs quiet selections
      = (selections.filterMap (fun sel => prs[sel - 1]?.map Prod.fst),
         if quiet then []
         else (selections.filter (fun sel => prs[sel - 1]?.isNone)).map skip_msg)
    ∧ (handle_confirm_select prs quiet (0 :: selections)).1
        = (handle_confirm_select prs quiet (1 :: selections)).1 := by
  constructor
  · induction selections with
    | nil => cases quiet <;> rfl
    | cons sel rest ih =>
      cases hc : prs[sel - 1]? with
      | some pr_st =>
        simp [handle_confirm_select, hc, ih]
      | none =>
        simp [handle_confirm_select, hc, ih]
        cases quiet <;> simp [hc]
  · simp only [handle_confirm_select, Nat.zero_sub, Nat.sub_self]
    cases hc : prs[0]? <;> cases quiet <;> simp [hc]

/-- C3 witness: the amended theorem applied at the concrete input
`[0, 99]` over 3 candidates. -/
theorem c3_select_amended_witness :
    handle_confirm_select cand3 false [0, 99]
      = ([0, 99].filterMap (fun sel => cand3[sel - 1]?.map Prod.fst),
         ([0, 99].filter (fun sel => cand3[sel - 1]?.isNone)).map skip_msg) :=
  (c3_select_amended cand3 [0, 99] false).1

/-- `translate_stdin` from `main.rs`: trimmed input `"all"` (case
sensitive) selects everything; otherwise the input is split on commas,
each piece trimmed and parsed as a `usize` with no bounds check, any
parse failure making the whole input unparseable. -/
def translate_stdin (s : String) : Option Confirmation :=
  if str_trim s = "all" then some Confirmation.All
  else
    match (split_comma_str s).mapM (fun t => parse_usize (str_trim t)) with
    | some selections => some (Confirmation.Select selections)
    | none => none

/-- Result of the `confirm` loop: a validated confirmation, or process
exit with a status code. -/
inductive ConfirmResult where
  | validated : Confirmation → ConfirmResult
  | exited : Nat → ConfirmResult
deriving DecidableEq

/-- The retry loop of `confirm` from `main.rs` over a list of stdin lines
(an exhausted stdin reads as the empty line, which never parses): up to
the given number of attempts, return the first line that translates;
once the attempts are used up, `process::exit(67)`. -/
def confirm_attempts : List String → Nat → ConfirmResult
  | _, 0 => .exited 67
  | lines, n+1 =>
    match translate_stdin (lines.headD "") with
    | some c => .validated c
    | none => confirm_attempts lines.tail n

/-- `confirm` from `main.rs`: 5 total attempts. -/
def confirm (lines : List String) : ConfirmResult := confirm_attempts lines 5

theorem confirm_attempts_all_fail :
    ∀ (n : Nat) (lines : List String),
      (∀ i, i < n → translate_stdin ((lines.get? i).getD "") = none) →
      confirm_attempts lines n = .exited 67 := by
  intro n
  induction n with
  | zero => intro lines _; rfl
  | succ m ih =>
    intro lines h
    have h0 : translate_stdin (lines.headD "") = none := by
      have h0' := h 0 (by omega)
      cases lines with
      | nil => simpa using h0'
      | cons a rest => simpa using h0'
    have hstep : confirm_attempts lines (m+1) = confirm_attempts lines.tail m := by
      simp only [confirm_attempts]
      rw [h0]
    rw [hstep]
    apply ih
    intro i hi
    have hi' := h (i+1) (by omega)
    cases lines with
    | nil => simpa using hi'
    | cons a rest => simpa using hi'

/-- C7: the selection state machine.  Trimmed input `"all"` validates as
`All` (case-sensitively: `"ALL"` does not translate at all); input all of
whose comma-separated trimmed tokens parse as non-negative integers
validates as `Select` with the raw indices, with no bounds check at parse
time (`"0,99"` parses to `[0, 99]`); an untranslatable line consumes one
of the attempts and the loop retries on the remaining lines; and when the
first 5 lines all fail to translate the process exits with status
code 67. -/
theorem c7_selection_machine :
    (∀ s : String, str_trim s = "all" → translate_stdin s = some Confirmation.All)
    ∧ (∀ (s : String) (selections : List Nat), str_trim s ≠ "all" →
        (split_comma_str s).mapM (fun t => parse_usize (str_trim t)) = some selections →
        translate_stdin s = some (Confirmation.Select selections))
    ∧ translate_stdin "0,99" = some (Confirmation.Select [0, 99])
    ∧ translate_stdin "ALL" = none
    ∧ (∀ (l : String) (rest : List String) (n : Nat), translate_stdin l = none →
        confirm_attempts (l :: rest) (n+1) = confirm_attempts rest n)
    ∧ (∀ lines : List String,
        (∀ i, i < 5 → translate_stdin ((lines.get? i).getD "") = none) →
        confirm lines = ConfirmResult.exited 67) := by
  refine ⟨?_, ?_, rfl, rfl, ?_, ?_⟩
  · intro s h
    simp [translate_stdin, h]
  · intro s sels h hp
    simp only [translate_stdin, if_neg h]
    rw [hp]
  · intro l rest n h
    simp only [confirm_attempts, List.headD, List.tail]
    rw [h]
  · intro lines h
    exact confirm_attempts_all_fail 5 lines h

/-- C7 witness: the state machine applied at concrete operator inputs. -/
theorem c7_selection_machine_witness :
    translate_stdin " all\n" = some Confirmation.All
    ∧ translate_stdin "1, 3" = some (Confirmation.Select [1, 3])
    ∧ confirm_attempts ["abc", "1"] 3 = confirm_attempts ["1"] 2
    ∧ confirm ["abc", "abc", "abc", "abc", "abc"] = ConfirmResult.exited 67 := by
  refine ⟨c7_selection_machine.1 " all\n" (by decide),
          c7_selection_machine.2.1 "1, 3" [1, 3] (by decide) (by decide),
          c7_selection_machine.2.2.2.2.1 "abc" ["1"] 2 (by decide),
          c7_selection_machine.2.2.2.2.2 ["abc", "abc", "abc", "abc", "abc"] ?_⟩
  intro i hi
  interval_cases i <;> decide

/-! ## PR discovery filters (`approve_main` retain, `get_own_prs`) -/

/-- The author filter of `approve_main` from `main.rs`: retain PRs whose
lowercased author login is one of the two recognised bot logins. -/
def approve_retain (prs : List PullRequest) : List PullRequest :=
  prs.filter (fun pr =>
    lower_str pr.user.login == "dependabot-preview[bot]"
      || lower_str pr.user.login == "dependabot[bot]")

/-- C6: the approve-mode author filter is idempotent, and retains exactly
the PRs whose author login lowercases to one of the two recognised bot
logins (hence matches case-insensitively, the recognised logins being
lowercase); concretely the three bot spellings are retained and
`some-user` is dropped. -/
theorem c6_bot_filter (prs : List PullRequest) (pr : PullRequest) :
    approve_retain (approve_retain prs) = approve_retain prs
    ∧ (pr ∈ approve_retain prs ↔ pr ∈ prs ∧
        (lower_str pr.user.login = "dependabot-preview[bot]"
          ∨ lower_str pr.user.login = "dependabot[bot]"))
    ∧ approve_retain [mkPR "Dependabot[bot]", mkPR "dependabot[bot]",
        mkPR "DEPENDABOT-PREVIEW[BOT]", mkPR "some-user"]
      = [mkPR "Dependabot[bot]", mkPR "dependabot[bot]",
         mkPR "DEPENDABOT-PREVIEW[BOT]"] := by
  refine ⟨?_, ?_, by decide⟩
  · rw [approve_retain, approve_retain, List.filter_filter]
    simp only [Bool.and_self]
  · simp [approve_retain, List.mem_filter]

/-- `get_own_prs` from `main.rs` (cleanup mode), over the already fetched
PR list: retain PRs whose LOWERCASED author login equals the operator
identity string as given — the identity itself is not lowercased. -/
def get_own_prs (prs : List PullRequest) (user : String) : List PullRequest :=
  prs.filter (fun pr => lower_str pr.user.login == user)

/-- C9, counterexample.  With operator identity `"Alice"`, a PR whose
author login is literally `"Alice"` — which certainly matches the
identity case-insensitively — is dropped, because only the login is
lowercased before the comparison (`"alice" ≠ "Alice"`). -/
theorem c9_counterexample :
    get_own_prs [mkPR "Alice"] "Alice" = []
    ∧ (mkPR "Alice").user.login = "Alice" := by
  exact ⟨rfl, rfl⟩

/-- C9, amended.  `get_own_prs` retains exactly the PRs whose lowercased
author login equals the operator identity verbatim: the author login is
compared case-insensitively, but the identity is not lowercased, so an
identity containing an uppercase letter matches nothing. -/
theorem c9_own_prs_amended (prs : List PullRequest) (user : String)
    (pr : PullRequest) :
    (pr ∈ get_own_prs prs user ↔ pr ∈ prs ∧ lower_str pr.user.login = user)
    ∧ get_own_prs [mkPR "ALICE"] "alice" = [mkPR "ALICE"]
    ∧ get_own_prs [mkPR "Alice"] "Alice" = [] := by
  refine ⟨?_, rfl, rfl⟩
  simp [get_own_prs, List.mem_filter]

/-! ## Review scanner (`Review::is_junk`, `find_junk_reviews`) -/

/-- The body-text half of `Review::is_junk`: if a text filter is present
and the body does not contain it, the review is not junk. -/
def is_junk_text (r : Review) (text : Option String) : Bool :=
  match text with
  | some t => if !(str_contains r.body t) then false else true
  | none => true

/-- `Review::is_junk` from `main.rs`: an identity filter mismatch returns
false early, then the body-text filter is checked; with no filters every
review is junk. -/
def is_junk (r : Review) (login text : Option String) : Bool :=
  match login with
  | some l => if l != r.user.login then false else is_junk_text r text
  | none => is_junk_text r text

/-- C8: a review is junk iff (identity filter absent OR the review author
equals the identity) AND (text filter absent OR the body contains the
text as a case-sensitive substring); with both filters absent every
review is junk. -/
theorem c8_is_junk (r : Review) (login text : Option String) :
    (is_junk r login text = true ↔
      ((∀ l, login = some l → l = r.user.login)
        ∧ (∀ t, text = some t → str_contains r.body t = true)))
    ∧ is_junk r none none = true := by
  refine ⟨?_, rfl⟩
  cases login <;> cases text <;> simp [is_junk, is_junk_text]

/-! ## Cleanup flow (`clear_junk_main`, `find_junk_reviews`, dismissals) -/

/-- `struct ClearJunkOptions` from `main.rs`. -/
structure ClearJunkOptions where
  username : String
  owner : String
  repo : String
  api_key : Option String
  key_path : Option String
  dry_run : Bool
  login : Option String
  text : Option String

/-- The url of the dismissal PUT issued by `clear_junk_main`. -/
def dismiss_url (pr : PullRequest) (r : Review) : String :=
  BASE_URL ++ "/repos/" ++ pr.base.repo.owner.login ++ "/" ++ pr.base.repo.name
    ++ "/pulls/" ++ Nat.repr pr.number ++ "/reviews/" ++ Nat.repr r.id
    ++ "/dismissals"

/-- `find_junk_reviews` from `main.rs`, over the result of
`get_with_retry`: a transport error propagates with `?`, a non-2xx status
exits with code 1, a body decode error propagates with `?`, and otherwise
the reviews are filtered by `Review::is_junk`. -/
def find_junk_reviews (fetched : Except String (HttpResponse (List Review)))
    (login text : Option String) : RunOutcome (List Review) :=
  match fetched with
  | .error e => .failed e
  | .ok res =>
    if status_is_success res.status then
      match res.body with
      | .error e => .failed e
      | .ok reviews => .ok (reviews.filter (fun r => is_junk r login text))
    else .exited 1

/-- The inner dismissal loop of `clear_junk_main`: one PUT per junk
review through `put_with_retry` (`put_t url` is the per-attempt transport
for that url); the issued PUT urls are recorded, and a transport error
stops the loop and propagates with `?`. -/
def dismiss_reviews (pr : PullRequest)
    (put_t : String → Nat → Except String Nat) :
    List Review → List String × Option String
  | [] => ([], none)
  | r :: rest =>
    match (put_with_retry (put_t (dismiss_url pr r))).1 with
    | .ok _ =>
      ((dismiss_url pr r) :: (dismiss_reviews pr put_t rest).1,
        (dismiss_reviews pr put_t rest).2)
    | .error e => ([dismiss_url pr r], some e)

/-- Environment of one `clear_junk_main` run: the discovered own PRs, the
review-fetch result per PR, and the PUT transport per url and attempt. -/
structure CJEnv where
  prs : List PullRequest
  reviews_fetch : PullRequest → Except String (HttpResponse (List Review))
  put_transport : String → Nat → Except String Nat

/-- The PR loop of `clear_junk_main` from `main.rs`, followed by the
unconditional `todo!()` that ends the function: the loop records every
dismissal PUT issued; once all PRs are processed the `todo!()` aborts the
program, so the function can never return `Ok`.  Note that `opts` is
consulted only for `login` and `text`: `dry_run` is never read. -/
def clear_junk_loop (opts : ClearJunkOptions) (env : CJEnv) :
    List PullRequest → List String × RunOutcome Unit
  | [] => ([], .panicked)
  | pr :: rest =>
    match find_junk_reviews (env.reviews_fetch pr) opts.login opts.text with
    | .ok reviews =>
      match dismiss_reviews pr env.put_transport reviews with
      | (us, none) =>
        (us ++ (clear_junk_loop opts env rest).1, (clear_junk_loop opts env rest).2)
      | (us, some e) => (us, .failed e)
    | .exited n => ([], .exited n)
    | .failed e => ([], .failed e)
    | .panicked => ([], .panicked)

/-- `clear_junk_main` from `main.rs` (credential and client setup are out
of scope; discovery is the `prs` field of the environment). -/
def clear_junk_main (opts : ClearJunkOptions) (env : CJEnv) :
    List String × RunOutcome Unit :=
  clear_junk_loop opts env env.prs

/-- Replace only the `dry_run` field of the options. -/
def set_dry_run (o : ClearJunkOptions) (b : Bool) : ClearJunkOptions :=
  ⟨o.username, o.owner, o.repo, o.api_key, o.key_path, b, o.login, o.text⟩

theorem clear_junk_loop_ne_ok (opts : ClearJunkOptions) (env : CJEnv) :
    ∀ (l : List PullRequest) (u : Unit), (clear_junk_loop opts env l).2 ≠ .ok u := by
  intro l
  induction l with
  | nil => intro u; simp [clear_junk_loop]
  | cons pr rest ih =>
    intro u
    cases hf : find_junk_reviews (env.reviews_fetch pr) opts.login opts.text with
    | ok reviews =>
      rcases hd : dismiss_reviews pr env.put_transport reviews with ⟨us, o⟩
      cases o with
      | none => simpa [clear_junk_loop, hf, hd] using ih u
      | some e => simp [clear_junk_loop, hf, hd]
    | exited n => simp [clear_junk_loop, hf]
    | failed e => simp [clear_junk_loop, hf]
    | panicked => simp [clear_junk_loop, hf]

theorem clear_junk_loop_opts_eq (o1 o2 : ClearJunkOptions) (env : CJEnv)
    (hl : o1.login = o2.login) (ht : o1.text = o2.text) :
    ∀ l, clear_junk_loop o1 env l = clear_junk_loop o2 env l := by
  intro l
  induction l with
  | nil => rfl
  | cons pr rest ih =>
    simp only [clear_junk_loop, hl, ht, ih]

/-- Concrete data for the C10 scenario: one own PR, one junk review, all
fetches and dismissals succeed with status 200, and `dry_run` is on. -/
def cj_pr0 : PullRequest := mkPR "operator"

/-- The single junk review of the C10 scenario. -/
def cj_review0 : Review := ⟨1, "junk body", ⟨"reviewer"⟩⟩

/-- Cleanup options with `dry_run = true` and no junk filters. -/
def cj_opts0 : ClearJunkOptions :=
  ⟨"operator", "own", "repo", some "key", none, true, none, none⟩

/-- Environment where every fetch and every dismissal succeeds. -/
def cj_env0 : CJEnv :=
  ⟨[cj_pr0], fun _ => .ok ⟨200, .ok [cj_review0]⟩, fun _ _ => .ok 200⟩

/-- C10: `clear_junk_main` never returns `Ok` — after the dismissal loop
it unconditionally reaches the `todo!()` abort; the `dry_run` option is
never consulted (changing it never changes the outcome); and concretely,
with `dry_run = true` and a fully successful environment, the dismissal
PUT is still issued and the run ends in the `todo!()` abort. -/
theorem c10_clear_junk :
    (∀ (opts : ClearJunkOptions) (env : CJEnv) (u : Unit),
      (clear_junk_main opts env).2 ≠ RunOutcome.ok u)
    ∧ (∀ (opts : ClearJunkOptions) (env : CJEnv) (b : Bool),
      clear_junk_main (set_dry_run opts b) env = clear_junk_main opts env)
    ∧ cj_opts0.dry_run = true
    ∧ clear_junk_main cj_opts0 cj_env0
        = ([dismiss_url cj_pr0 cj_review0], RunOutcome.panicked) := by
  refine ⟨?_, ?_, rfl, rfl⟩
  · intro opts env u
    exact clear_junk_loop_ne_ok opts env env.prs u
  · intro opts env b
    exact clear_junk_loop_opts_eq (set_dry_run opts b) opts env rfl rfl env.prs

/-- C10 witness: the general parts of the theorem applied at the concrete
scenario. -/
theorem c10_clear_junk_witness :
    (clear_junk_main cj_opts0 cj_env0).2 ≠ RunOutcome.ok ()
    ∧ clear_junk_main (set_dry_run cj_opts0 false) cj_env0
        = clear_junk_main cj_opts0 cj_env0 :=
  ⟨c10_clear_junk.1 cj_opts0 cj_env0 (), c10_clear_junk.2.1 cj_opts0 cj_env0 false⟩
